import Mathlib

/-!
# Verification of the MeeM inspiration-discovery pipeline

Shallow embedding of the inspiration discovery and validation pipeline of the
MeeM prompt app:

* `checkUrlAlive`, `findWebInspiration`, `searchPexels` and the candidate
  validation/scoring/filtering logic from `src/services/geminiService.ts`;
* the verification proxy from `src/server/verify-server.js`.

Network calls and model responses are represented by explicit oracles
(functions and data supplied as parameters), so that every definition is a
pure, executable translation of the corresponding JavaScript/TypeScript code.
JavaScript truthiness on strings ("" is falsy) is modelled explicitly.
-/

/-- JS string truthiness: a string is truthy iff it is nonempty. -/
def strTruthy (s : String) : Bool := s ≠ ""

/-- JS truthiness of a possibly-missing string (`undefined`/`null` and `""` are falsy). -/
def optTruthy : Option String → Bool
  | none => false
  | some s => strTruthy s

/-- JS `a || b` on possibly-missing strings. -/
def jsOr (a b : Option String) : Option String :=
  if optTruthy a then a else b

/-- JS `a || b` where `a` is a string and the whole expression is a string. -/
def jsOrS (a b : String) : String :=
  if strTruthy a then a else b

/-- Lower-case every character (models JS `.toLowerCase()` / the `i` regex flag
for the ASCII strings handled by this pipeline). -/
def lowerStr (s : String) : String := String.mk (s.data.map Char.toLower)

/-- `containsSub hay pat`: `pat` occurs as a contiguous substring of `hay`
(models JS `String.prototype.includes`). -/
def containsSub (hay pat : String) : Bool :=
  decide (pat.toList <:+: hay.toList)

/-- Case-insensitive substring test (models a case-insensitive regex literal match). -/
def containsCI (hay pat : String) : Bool :=
  containsSub (lowerStr hay) (lowerStr pat)

/-- `pat` is a suffix of `s` (models the `$`-anchored part of a regex). -/
def strEndsWith (s pat : String) : Bool :=
  decide (pat.toList <:+ s.toList)

/-- `pat` is a prefix of `s` (models a `^`-anchored regex). -/
def strStartsWith (s pat : String) : Bool :=
  decide (pat.toList <+: s.toList)

/-- Split a character list at every occurrence of `c` (JS
`String.prototype.split` with a one-character separator; every separator used
by the pipeline is a single character). -/
def splitChar (c : Char) : List Char → List (List Char)
  | [] => [[]]
  | x :: xs =>
    let r := splitChar c xs
    if x = c then [] :: r
    else
      match r with
      | [] => [[x]]
      | h :: t => (x :: h) :: t

/-- JS `s.split(c)` for a one-character separator. -/
def jsSplit (c : Char) (s : String) : List String :=
  (splitChar c s.data).map String.mk

/-- JS `s.trim()`: strip whitespace from both ends. -/
def jsTrim (s : String) : String :=
  String.mk (((s.data.dropWhile Char.isWhitespace).reverse.dropWhile
    Char.isWhitespace).reverse)

/-! ## `checkUrlAlive` (src/services/geminiService.ts, lines 25-61) -/

/-- Result of `checkUrlAlive`: `{ alive: boolean; contentType?: string | null }`. -/
structure CheckResult where
  alive : Bool
  contentType : Option String
  deriving DecidableEq, Repr

/-- Outcome of the `fetch` against the local verify server (lines 33-46).
`okAlive alive ct` models `res.ok` with a JSON body whose `alive` field is
defined (`alive = !!json.alive`, `ct = json.contentType`); `noAnswer` models
every other case (network exception, abort, `!res.ok`, or a body without an
`alive` field), all of which fall through to the client-side HEAD check. -/
inductive VerifyOutcome where
  | okAlive (alive : Bool) (contentType : Option String)
  | noAnswer
  deriving DecidableEq, Repr

/-- Outcome of the direct client-side `fetch(url, { method: 'HEAD' })`
(lines 48-60): `resp ok ct` models a response with `res.ok = ok` and
`content-type` header `ct`; `fetchError` models a thrown exception
(CORS failure or abort). -/
inductive HeadOutcome where
  | resp (ok : Bool) (contentType : Option String)
  | fetchError
  deriving DecidableEq, Repr

/-- The network, as the pipeline sees it: what the verify server and a direct
HEAD check answer for each URL. -/
structure NetOracle where
  verify : String → VerifyOutcome
  head : String → HeadOutcome

/-- The image-extension test `/\.(jpe?g|png|webp|gif)(\?|$)/i` (line 25):
"." + extension followed by "?" or end of string, case-insensitively. -/
def isLikelyImageUrl (u : String) : Bool :=
  ["jpg", "jpeg", "png", "webp", "gif"].any fun ext =>
    containsSub (lowerStr u) ("." ++ ext ++ "?") || strEndsWith (lowerStr u) ("." ++ ext)

/-- The dead-URL keywords of the regex `/404|notfound|error|page-not-found/i`
(line 31). All four patterns are already lower-case. -/
def deadKeywordPatterns : List String := ["404", "notfound", "error", "page-not-found"]

/-- Line 31: the URL contains one of the dead-URL keywords, case-insensitively. -/
def hasDeadKeyword (url : String) : Bool :=
  deadKeywordPatterns.any fun k => containsSub (lowerStr url) k

/-- `checkUrlAlive` (lines 28-61). Returns the check result together with a
flag recording whether any network request was issued: both early returns
(empty URL, dead-keyword short-circuit) happen before either `fetch`, so they
report `false`; every other path first contacts the verify server. The
unreachable `if (!res)` guard of line 53 is omitted (a resolved `fetch` is
never falsy). -/
def checkUrlAlive (net : NetOracle) (url : String) : CheckResult × Bool :=
  if url = "" then ({ alive := false, contentType := none }, false)
  else if hasDeadKeyword url then ({ alive := false, contentType := none }, false)
  else
    let r : CheckResult :=
      match net.verify url with
      | .okAlive alive ct => { alive := alive, contentType := jsOr ct none }
      | .noAnswer =>
        match net.head url with
        | .resp ok ct => { alive := ok, contentType := jsOr ct none }
        | .fetchError => { alive := isLikelyImageUrl url, contentType := none }
    (r, true)

/-! ## URL helpers -/

/-- The characters after the first `://` occurrence, if any. -/
def afterSchemeSep : List Char → Option (List Char)
  | ':' :: '/' :: '/' :: rest => some rest
  | _ :: rest => afterSchemeSep rest
  | [] => none

/-- Models the platform URL parser's hostname extraction, `new URL(u).hostname`
(a browser/Node builtin, not part of the repository source): the authority
component after `scheme://`, with userinfo and port stripped, lower-cased;
`none` models the constructor throwing on input without a `scheme://` part or
with an empty host. -/
def hostnameOf (u : String) : Option String :=
  match u.data with
  | [] => none
  | c :: rest =>
    if c = ':' then none
    else
      match afterSchemeSep (c :: rest) with
      | none => none
      | some after =>
        let authority := after.takeWhile fun ch => ch ≠ '/' && ch ≠ '?' && ch ≠ '#'
        let hostPort := ((splitChar '@' authority).getLast?).getD []
        let host := hostPort.takeWhile (· ≠ ':')
        if host.isEmpty then none else some (lowerStr (String.mk host))

/-- Hex digit for percent-encoding (upper case, as produced by `encodeURIComponent`). -/
def hexDigit (n : Nat) : Char :=
  if n < 10 then Char.ofNat (48 + n) else Char.ofNat (55 + n)

/-- Characters left unescaped by the JS builtin `encodeURIComponent`. -/
def isUnescapedURIChar (c : Char) : Bool :=
  c.isAlphanum || c ∈ ['-', '_', '.', '!', '~', '*', '\'', '(', ')']

/-- Percent-encode one character as its UTF-8 bytes. -/
def percentEncodeChar (c : Char) : String :=
  (String.singleton c).toUTF8.toList.foldl
    (fun acc b =>
      acc ++ "%" ++ String.singleton (hexDigit (b.toNat / 16))
          ++ String.singleton (hexDigit (b.toNat % 16)))
    ""

/-- Models the JS builtin `encodeURIComponent` (not part of the repository source). -/
def encodeURIComponent (s : String) : String :=
  s.toList.foldl
    (fun acc c => acc ++ if isUnescapedURIChar c then String.singleton c else percentEncodeChar c)
    ""

/-- The APIFlash screenshot URL built at lines 224, 241 and 354 of
`geminiService.ts`. -/
def snapUrl (key uri : String) : String :=
  "https://api.apiflash.com/v1/urltoimage?access_key=" ++ key ++ "&url="
    ++ encodeURIComponent uri ++ "&format=jpeg&quality=80&thumbnail_width=800"

/-- The microlink preview URL of lines 224 and 313. -/
def microlinkUrl (uri : String) : String := "https://i.microlink.io/" ++ uri

/-- Preferred source hosts (line 23). -/
def preferredHosts : List String :=
  ["dezeen.com", "archdaily.com", "unsplash.com", "pexels.com", "architizer.com"]

/-! ## Result type and the Pexels stage (lines 136-181) -/

/-- The `WebInspiration` entries returned by `findWebInspiration`. The Pexels
stage builds objects without a `matchReason` property (modelled as `none`);
the grounded and fallback stages always set one. -/
structure WebInspiration where
  uri : String
  title : String
  source : String
  previewUrl : String
  matchReason : Option String
  deriving DecidableEq, Repr

/-- One photo object of a Pexels API response, with the fields the mapping at
lines 159-164 reads. Missing JSON fields are `none`. -/
structure PexelsPhoto where
  url : String
  photographer_url : String
  alt : Option String
  photographer : Option String
  srcLarge : Option String
  srcMedium : Option String
  srcOriginal : Option String
  deriving DecidableEq, Repr

/-- The per-photo mapping of lines 159-164. -/
def mkPexelsItem (p : PexelsPhoto) : WebInspiration :=
  { uri := jsOrS p.url p.photographer_url
    title := (jsOr p.alt (some ("Pexels - " ++ ((jsOr p.photographer (some "photo")).getD "")))).getD ""
    source := "pexels.com"
    previewUrl := (jsOr (jsOr (jsOr p.srcLarge p.srcMedium) p.srcOriginal) (some "")).getD ""
    matchReason := none }

/-- Lines 159-164: map the photos and keep those with both a preview URL and a
resource URL. -/
def pexelsMapped (photos : List PexelsPhoto) : List WebInspiration :=
  (photos.map mkPexelsItem).filter fun p => strTruthy p.previewUrl && strTruthy p.uri

/-- `searchPexels` (lines 149-171). `resp` is the network oracle for the
Pexels API call: `none` models a failed fetch, a non-ok response, or a body
without a `photos` array; `some photos` models a parsed `photos` array. The
query only determines the request URL, which the oracle stands for. -/
def searchPexels (pexelsKey : Option String) (resp : Option (List PexelsPhoto))
    (_query : String) (perPage : Nat) : Option (List WebInspiration) :=
  if !optTruthy pexelsKey then none
  else
    match resp with
    | none => none
    | some photos =>
      let mapped := pexelsMapped photos
      if mapped.length = 0 then none else some (mapped.take perPage)

/-! ## Candidate liveness validation (lines 230-244 and 343-357)

The grounded-search path and the free-text fallback path run the identical
three-step liveness check on each candidate; it is factored out here. -/

/-- The image URL, liveness flag and content type a candidate ends up with
after validation (the values of the local variables `imageUrl`, `alive`,
`contentType` once lines 230-244 / 343-357 have run). -/
structure LiveResult where
  imageUrl : String
  alive : Bool
  contentType : Option String
  deriving DecidableEq, Repr

/-- Lines 230-244 (identically 343-357): check the preview URL; if dead, check
the page URL (keeping the preview URL as the image); if still dead and an
APIFlash key is configured, check a rendered-screenshot URL and substitute it
only when that check reports alive. -/
def livenessPass (net : NetOracle) (apiflashKey : Option String)
    (previewUrl uri : String) : LiveResult :=
  let first := (checkUrlAlive net previewUrl).1
  let alive0 := first.alive
  let ct0 := first.contentType
  let p1 : Bool × Option String :=
    if !alive0 && strTruthy uri then
      let page := (checkUrlAlive net uri).1
      (page.alive, jsOr ct0 page.contentType)
    else (alive0, ct0)
  if !p1.1 && strTruthy uri && optTruthy apiflashKey then
    let snap := snapUrl (apiflashKey.getD "") uri
    let snapCheck := (checkUrlAlive net snap).1
    if snapCheck.alive then
      { imageUrl := snap, alive := true, contentType := jsOr snapCheck.contentType p1.2 }
    else
      { imageUrl := previewUrl, alive := p1.1, contentType := p1.2 }
  else { imageUrl := previewUrl, alive := p1.1, contentType := p1.2 }

/-! ## Scoring (lines 246-257 and 319-326, 358-361) -/

/-- Every score increment of the pipeline is an exact multiple of 0.1
(+2, +0.5, +0.6, +1, +1.2, +1.5), so scores are represented exactly as
integers in **tenths of a point**: the source's `score += 1.2` becomes
`score + 12` here, and the filter threshold `score >= 2` becomes `20 ≤ score`.
This keeps every value exact and lets concrete runs be evaluated by `decide`. -/
abbrev Score := Int

/-- The tag part of the score, translated from the `tagMatchers.forEach` loops
at lines 248 and 322: +2 (= 20 tenths) when the (lower-cased) tag occurs in
the haystack, plus `wordBonus` tenths for every nonempty word of the tag that
occurs independently; falsy tags are skipped entirely. -/
def scoreTags (wordBonus : Score) (hay : String) (tagMatchers : List String) : Score :=
  tagMatchers.foldl
    (fun score tag =>
      if tag = "" then score
      else
        let score := if containsSub hay tag then score + 20 else score
        (jsSplit ' ' tag).foldl
          (fun s p => if p ≠ "" && containsSub hay p then s + wordBonus else s) score)
    0

/-- `/image\//i.test(contentType)` guarded by truthiness (lines 251, 261, 360, 369). -/
def ctImage (ct : Option String) : Bool :=
  optTruthy ct && containsCI (ct.getD "") "image/"

/-- `/pdf/i.test(contentType)` guarded by truthiness (lines 255, 363). -/
def isPdfCt (ct : Option String) : Bool :=
  optTruthy ct && containsCI (ct.getD "") "pdf"

/-- The host bonus of lines 252 and 324: parse the hostname of the page URL
and test it against the preferred hosts; a throwing URL parse yields no bonus. -/
def hostScoreBonus (uri : String) : Bool :=
  match hostnameOf uri with
  | some host => preferredHosts.any fun h => containsSub host h
  | none => false

/-- The fallback-path image-extension regex `/\.(jpe?g|png|webp)(\?|$)/i` of
line 323 — unlike `isLikelyImageUrl` it does not accept `.gif`. -/
def isImageUrlNoGif (u : String) : Bool :=
  ["jpg", "jpeg", "png", "webp"].any fun ext =>
    containsSub (lowerStr u) ("." ++ ext ++ "?") || strEndsWith (lowerStr u) ("." ++ ext)

/-! ## The grounded-search path (lines 214-267) -/

/-- The `web` part of a grounding chunk, with the fields lines 219-226 read. -/
structure WebData where
  uri : String
  title : String
  image : Option String
  imageUrl : Option String
  ogImage : Option String
  matchReason : Option String
  deriving DecidableEq, Repr

/-- One grounding chunk; `web = none` models a chunk without a `web` object. -/
structure Chunk where
  web : Option WebData
  deriving DecidableEq, Repr

/-- An unvalidated candidate as built by the mapping at lines 219-226 (and, in
the fallback path, lines 309-315). -/
structure RawCand where
  uri : String
  title : String
  source : String
  previewUrl : String
  matchReason : String
  deriving DecidableEq, Repr

/-- The per-chunk mapping of lines 221-226. -/
def mkGroundedCand (apiflashKey : Option String) (w : WebData) : RawCand :=
  let domain := (hostnameOf w.uri).getD w.uri
  let possibleImage := jsOr (jsOr w.image w.imageUrl) w.ogImage
  { uri := w.uri
    title := w.title
    source := domain
    previewUrl :=
      if optTruthy possibleImage then possibleImage.getD ""
      else if optTruthy apiflashKey then snapUrl (apiflashKey.getD "") w.uri
      else microlinkUrl w.uri
    matchReason := (jsOr w.matchReason (some "")).getD "" }

/-- Lines 219-226: keep the chunks with a `web` object carrying a truthy `uri`
and `title`, and map them to raw candidates. -/
def groundedRaw (apiflashKey : Option String) (chunks : List Chunk) : List RawCand :=
  chunks.filterMap fun ch =>
    ch.web.bind fun w =>
      if strTruthy w.uri && strTruthy w.title then some (mkGroundedCand apiflashKey w)
      else none

/-- A candidate after validation and scoring (`_score`, `_alive`,
`_contentType` of lines 257 and 365). -/
structure VCand where
  uri : String
  title : String
  source : String
  previewUrl : String
  matchReason : String
  score : Score
  alive : Bool
  contentType : Option String
  deriving DecidableEq, Repr

/-- The scoring haystack `${title} ${uri} ${previewUrl} ${matchReason}`,
lower-cased (lines 247 and 321). It always uses the candidate's original
preview URL, even when validation later substitutes a screenshot URL. -/
def hayOf (uri title previewUrl matchReason : String) : String :=
  lowerStr (title ++ " " ++ uri ++ " " ++ previewUrl ++ " " ++ matchReason)

/-- Grounded-path validation and scoring of one candidate (lines 230-257):
liveness pass, then the score (tags at +0.5 per word, +1.2 image extension on
the final image URL, +1.5 image content type, +1.5 preferred host, +2 alive),
then the PDF demotion `if (isPdf) alive = false` — note the +2 liveness bonus
has already been granted at that point. -/
def validateGrounded (net : NetOracle) (apiflashKey : Option String)
    (tagMatchers : List String) (item : RawCand) : VCand :=
  let live := livenessPass net apiflashKey item.previewUrl item.uri
  let hay := hayOf item.uri item.title item.previewUrl item.matchReason
  let score := scoreTags 5 hay tagMatchers
  let score := if isLikelyImageUrl live.imageUrl then score + 12 else score
  let score := if ctImage live.contentType then score + 15 else score
  let score := if hostScoreBonus item.uri then score + 15 else score
  let score := if live.alive then score + 20 else score
  let alive := if isPdfCt live.contentType then false else live.alive
  { uri := item.uri, title := item.title, source := item.source
    previewUrl := live.imageUrl, matchReason := item.matchReason
    score := score, alive := alive, contentType := live.contentType }

/-- The acceptance filter of lines 260-264 (identically 368-371): alive and an
image, or scored at least 2, or from a preferred host (by substring of the
whole page URL this time) and alive. -/
def passesFilter (i : VCand) : Bool :=
  let isImageType := ctImage i.contentType
  let hostPreferred := preferredHosts.any fun h => containsSub i.uri h
  (i.alive && isImageType) || decide ((20 : Score) ≤ i.score) || (hostPreferred && i.alive)

/-- Insertion step of the descending score sort. -/
def insertByScore {α : Type} (sc : α → Score) (x : α) : List α → List α
  | [] => [x]
  | y :: ys => if sc y ≤ sc x then x :: y :: ys else y :: insertByScore sc x ys

/-- The stable descending sort `(a, b) => (b._score || 0) - (a._score || 0)`
of lines 265, 329 and 372, modelled as a stable insertion sort (every `_score`
field is set in both paths, so the `|| 0` defaults never fire). -/
def sortByScoreDesc {α : Type} (sc : α → Score) : List α → List α
  | [] => []
  | x :: xs => insertByScore sc x (sortByScoreDesc sc xs)

/-- Strip the internal `_score`/`_alive`/`_contentType` fields (lines 266, 373). -/
def stripV (i : VCand) : WebInspiration :=
  { uri := i.uri, title := i.title, source := i.source
    previewUrl := i.previewUrl, matchReason := some i.matchReason }

/-- The grounded-search path result (lines 219-266): build, validate, filter,
sort by descending score, truncate to `count`, strip internal fields. -/
def groundedResult (net : NetOracle) (apiflashKey : Option String)
    (attributeTags : List String) (chunks : List Chunk) (count : Nat) : List WebInspiration :=
  let tagMatchers := attributeTags.map lowerStr
  let raw := groundedRaw apiflashKey chunks
  let validated := raw.map (validateGrounded net apiflashKey tagMatchers)
  let filtered := sortByScoreDesc VCand.score (validated.filter passesFilter)
  (filtered.take count).map stripV

/-! ## The free-text fallback path (lines 269-377) -/

/-- One element of the JSON array the fallback model call may return, with all
the alternative key spellings lines 309-315 probe. `matchWord` stands for the
JS property named `match` (a reserved word in Lean). Missing keys are `none`. -/
structure FItem where
  url : Option String
  uri : Option String
  page : Option String
  pageUrl : Option String
  title : Option String
  name : Option String
  pageTitle : Option String
  source : Option String
  imageUrl : Option String
  img : Option String
  image : Option String
  thumbnail : Option String
  matchReason : Option String
  matchWord : Option String
  deriving DecidableEq, Repr

/-- An `FItem` with every key absent. -/
def emptyFItem : FItem :=
  { url := none, uri := none, page := none, pageUrl := none, title := none,
    name := none, pageTitle := none, source := none, imageUrl := none,
    img := none, image := none, thumbnail := none, matchReason := none,
    matchWord := none }

/-- The per-item mapping of lines 309-315. -/
def mkFallbackItem (it : FItem) : RawCand :=
  { uri := (jsOr (jsOr (jsOr it.url it.uri) it.page) it.pageUrl).getD ""
    title := (jsOr (jsOr (jsOr it.title it.name) it.pageTitle) (some "Inspiration")).getD ""
    source :=
      if optTruthy it.source then it.source.getD ""
      else
        match hostnameOf ((jsOr it.url it.uri).getD "") with
        | some h => h
        | none => "unknown"
    previewUrl :=
      (jsOr (jsOr (jsOr (jsOr it.imageUrl it.img) it.image) it.thumbnail)
        (if optTruthy it.url then some (microlinkUrl (it.url.getD "")) else some "")).getD ""
    matchReason := (jsOr (jsOr it.matchReason it.matchWord) (some "")).getD "" }

/-- A fallback candidate carrying its pre-validation `_score` (line 328). -/
structure SCand where
  uri : String
  title : String
  source : String
  previewUrl : String
  matchReason : String
  score : Score
  deriving DecidableEq, Repr

/-- `scoreFor` (lines 319-326): tags at +0.6 per word, +1 for an image
extension (no `.gif`) on the pre-validation preview URL, +1.5 preferred host. -/
def scoreFor (tagMatchers : List String) (item : RawCand) : Score :=
  let hay := hayOf item.uri item.title item.previewUrl item.matchReason
  let score := scoreTags 6 hay tagMatchers
  let score :=
    if strTruthy item.previewUrl && isImageUrlNoGif item.previewUrl then score + 10 else score
  let score := if hostScoreBonus item.uri then score + 15 else score
  score

/-- Line 328: attach the `_score` computed by `scoreFor`. -/
def toScored (tagMatchers : List String) (r : RawCand) : SCand :=
  { uri := r.uri, title := r.title, source := r.source, previewUrl := r.previewUrl
    matchReason := r.matchReason, score := scoreFor tagMatchers r }

/-- `Array.from(new Set(xs))`: drop later duplicates, keeping first occurrences. -/
def dedupFirst (l : List String) : List String :=
  l.foldl (fun acc x => if x ∈ acc then acc else acc ++ [x]) []

/-- A candidate pushed by the extra-URL harvesting loop (line 338). -/
def harvestItem (u : String) : SCand :=
  { uri := u, title := u, source := (hostnameOf u).getD u, previewUrl := u
    matchReason := "", score := 0 }

/-- The harvesting loop of lines 335-339: walk the extra URLs, stop adding
once `count` candidates exist, skip URLs already present as a `uri`. -/
def harvest (count : Nat) (extraUrls : List String) (l : List SCand) : List SCand :=
  extraUrls.foldl
    (fun acc u =>
      if count ≤ acc.length then acc
      else if acc.any (fun x => x.uri = u) then acc
      else acc ++ [harvestItem u])
    l

/-- Fallback-path validation of one candidate (lines 343-365): liveness pass,
then `_score` grows by +1.2 for an image extension on the final image URL,
+1.5 for an image content type and +2 for liveness, then the PDF demotion. -/
def validateFallback (net : NetOracle) (apiflashKey : Option String) (c : SCand) : VCand :=
  let live := livenessPass net apiflashKey c.previewUrl c.uri
  let score := c.score
  let score := if isLikelyImageUrl live.imageUrl then score + 12 else score
  let score := if ctImage live.contentType then score + 15 else score
  let score := if live.alive then score + 20 else score
  let alive := if isPdfCt live.contentType then false else live.alive
  { uri := c.uri, title := c.title, source := c.source
    previewUrl := live.imageUrl, matchReason := c.matchReason
    score := score, alive := alive, contentType := live.contentType }

/-- How the raw fallback model text was interpreted (lines 291-305): `arr`
models `JSON.parse` yielding an array, `nonArray` a successful parse of
something else, `parseFailed` a `JSON.parse` exception (which triggers the
line-based URL extraction). -/
inductive ParseOutcome where
  | arr (items : List FItem)
  | nonArray
  | parseFailed
  deriving DecidableEq, Repr

/-- The observable content of the fallback model response. `urlMatches1` and
`urlMatches2` stand for the match lists of the two URL-extraction regexes over
the response text (lines 302 and 333; the regexes differ, so the lists are
separate oracles). -/
structure FallbackResp where
  parse : ParseOutcome
  urlMatches1 : List String
  urlMatches2 : List String
  deriving DecidableEq, Repr

/-- An item of the last-resort URL extraction (line 304). -/
def urlFItem (i : Nat) (u : String) : FItem :=
  { emptyFItem with
    url := some u
    title := some ("Result " ++ toString (i + 1))
    imageUrl := some u
    source := some ((hostnameOf u).getD u) }

/-- Lines 291-307: the parsed candidate array, or `none` when the function
returns `[]` because the parse produced a non-array. -/
def fallbackParsedItems (fb : FallbackResp) (count : Nat) : Option (List FItem) :=
  match fb.parse with
  | .arr items => some items
  | .nonArray => none
  | .parseFailed => some ((dedupFirst (fb.urlMatches1.take count)).mapIdx urlFItem)

/-- Lines 309-315: map the parsed items and keep those with a truthy `uri`. -/
def fallbackMapped (parsed : List FItem) : List RawCand :=
  (parsed.map mkFallbackItem).filter fun i => strTruthy i.uri

/-- The whole free-text fallback stage (lines 291-373): parse, map, score,
sort, harvest extra URLs when short of `count`, validate, filter, sort again,
truncate, strip. -/
def fallbackStage (net : NetOracle) (apiflashKey : Option String)
    (attributeTags : List String) (fb : FallbackResp) (count : Nat) : List WebInspiration :=
  match fallbackParsedItems fb count with
  | none => []
  | some parsed =>
    if parsed.length = 0 then []
    else
      let tagMatchers := attributeTags.map lowerStr
      let scored := (fallbackMapped parsed).map (toScored tagMatchers)
      let sorted := sortByScoreDesc SCand.score scored
      let withExtra :=
        if sorted.length < count then
          harvest count ((dedupFirst (fb.urlMatches2.take (count * 3))).filter strTruthy) sorted
        else sorted
      let validated := withExtra.map (validateFallback net apiflashKey)
      let filtered := sortByScoreDesc VCand.score (validated.filter passesFilter)
      (filtered.take count).map stripV

/-! ## Query synthesis and the whole of `findWebInspiration` (lines 94-386) -/

/-- The `SearchIntent` derived from the description call (lines 123-132). -/
structure Intent where
  searchQuery : String
  modifiers : List String
  attributeTags : List String
  deriving DecidableEq, Repr

/-- Line 129. -/
def extraTags : List String :=
  ["modern", "minimalist", "concrete", "residential", "exterior", "facade",
   "architecture", "high-resolution", "real photo"]

/-- Line 130, the `:` branch. -/
def defaultModifiers : List String :=
  ["site:dezeen.com", "site:archdaily.com", "architectural photography"]

/-- Lines 123-132: split the description text into lines, take query /
modifiers / tags, apply defaults, and append the supplemental tags to the
modifiers without duplicating existing entries. `txt` is
`descriptionResult.text` (`none` models an absent `.text`). -/
def deriveIntent (txt : Option String) : Intent :=
  let descText := jsTrim (txt.getD "")
  let lines := ((jsSplit '\n' descText).map jsTrim).filter strTruthy
  let searchQuery := match lines with | [] => descText | l :: _ => l
  let modifiersLine := match lines with | _ :: m :: _ => m | _ => ""
  let tagsLine := match lines with | _ :: _ :: t :: _ => t | _ => ""
  let baseModifiers :=
    if strTruthy modifiersLine then
      ((jsSplit ',' modifiersLine).map jsTrim).filter strTruthy
    else defaultModifiers
  let modifiers :=
    extraTags.foldl (fun ms tag => if tag ∈ ms then ms else ms ++ [tag]) baseModifiers
  let attributeTags :=
    if strTruthy tagsLine then ((jsSplit ',' tagsLine).map jsTrim).filter strTruthy
    else []
  { searchQuery := searchQuery, modifiers := modifiers, attributeTags := attributeTags }

/-- Outcome of one `generateContent` call: a value, or a thrown exception. -/
inductive CallOutcome (α : Type) where
  | ok (v : α)
  | threw (msg : String)
  deriving DecidableEq, Repr

/-- Everything external that one invocation of `findWebInspiration` can
observe: initialization state, the three model calls, the Pexels call, the
liveness network, and the configured keys. -/
structure Env where
  initialized : Bool
  descCall : CallOutcome (Option String)
  net : NetOracle
  pexelsKey : Option String
  pexelsResp : Option (List PexelsPhoto)
  apiflashKey : Option String
  searchCall : CallOutcome (Option (List Chunk))
  fallbackCall : CallOutcome FallbackResp

/-- The message of the `getAI` guard (lines 15 and 104). -/
def initErrMsg : String :=
  "Gemini API not initialized. Add gemini API key in AI model configuration panel"

/-- The outer catch (lines 379-385) rethrows every propagated error wrapped in
this message. -/
def wrapErr (m : String) : String := "Failed to find inspiration: " ++ m

/-- The Pexels stage decision of lines 173-181: `some results` when the stage
hits (a configured key, a successful search, and at least `min(1, count)`
results), `none` when execution falls through to the search stages. The query
is the one built at line 175. -/
def pexelsHitOf (env : Env) (intent : Intent) (count : Nat) : Option (List WebInspiration) :=
  if optTruthy env.pexelsKey then
    match searchPexels env.pexelsKey env.pexelsResp
        (jsTrim (intent.searchQuery ++ " " ++ String.intercalate " " intent.attributeTags))
        count with
    | some pexResults =>
      if min 1 count ≤ pexResults.length then some pexResults else none
    | none => none
  else none

/-- Lines 183-377: the grounded-search stage (line 217 tests
`groundingMetadata?.groundingChunks && ...length > 0`), falling back to the
free-text stage whose try/catch returns `[]` on a thrown call. An exception
of the grounded `generateContent` call itself is caught only by the outer
catch, which rethrows it wrapped. -/
def postPexels (env : Env) (tags : List String) (count : Nat) :
    Except String (List WebInspiration) :=
  match env.searchCall with
  | .threw m => .error (wrapErr m)
  | .ok gm =>
    if 0 < (gm.getD []).length then
      .ok (groundedResult env.net env.apiflashKey tags (gm.getD []) count)
    else
      match env.fallbackCall with
      | .threw _ => .ok []
      | .ok fb => .ok (fallbackStage env.net env.apiflashKey tags fb count)

/-- `findWebInspiration` (lines 94-386). Within the outer try, only the
initialization guard, the description call and the grounded-search call can
throw; their errors reach the outer catch and are rethrown wrapped. The
Pexels stage swallows its own failures (`searchPexels` returns `null`), and
the fallback stage is wrapped in its own try/catch that returns `[]`. -/
def findWebInspiration (env : Env) (count : Nat) : Except String (List WebInspiration) :=
  if !env.initialized then .error (wrapErr initErrMsg)
  else
    match env.descCall with
    | .threw m => .error (wrapErr m)
    | .ok txt =>
      match pexelsHitOf env (deriveIntent txt) count with
      | some pexResults => .ok (pexResults.take count)
      | none => postPexels env (deriveIntent txt).attributeTags count

/-! ## The verification proxy (src/server/verify-server.js) -/

/-- The JSON body `{alive, status, contentType}` produced by `doHeadCheck`;
`none` models an absent field (the error/timeout resolutions carry only
`alive`). -/
structure VerifyResult where
  alive : Bool
  status : Option Int
  contentType : Option String
  deriving DecidableEq, Repr

/-- What the server-side HEAD request did: responded with a status code and
`content-type` header, errored (including an unparsable target URL, whose
`catch` resolves identically), or timed out. -/
inductive ProxyHeadOutcome where
  | resp (status : Int) (contentType : Option String)
  | errored
  | timedOut
  deriving DecidableEq, Repr

/-- `doHeadCheck` (verify-server.js lines 7-30): alive exactly for a completed
HEAD with status in `[200, 400)`; error and timeout resolve `{alive: false}`. -/
def doHeadCheck (o : ProxyHeadOutcome) : VerifyResult :=
  match o with
  | .resp st ct =>
    { alive := decide (200 ≤ st) && decide (st < 400), status := some st
      contentType := jsOr ct none }
  | .errored => { alive := false, status := none, contentType := none }
  | .timedOut => { alive := false, status := none, contentType := none }

/-- A response body of the verify server: an error object or a check result. -/
inductive RespBody where
  | errBody (msg : String)
  | result (r : VerifyResult)
  deriving DecidableEq, Repr

/-- An HTTP response of the verify server. -/
structure HttpResp where
  status : Nat
  body : RespBody
  deriving DecidableEq, Repr

/-- The target sanitization regex `/^https?:\/\//i` (verify-server.js line 43). -/
def startsWithHttpPrefix (t : String) : Bool :=
  strStartsWith (lowerStr t) "http://" || strStartsWith (lowerStr t) "https://"

/-- The request handler (verify-server.js lines 32-51). `urlParam` / `uParam`
are the `url` and `u` query parameters (`none` when absent); the
`typeof target !== 'string'` guard can only fire for array-valued query
parameters, which this model does not represent. `head` is the network oracle
for the server-side HEAD request. -/
def handleVerify (urlParam uParam : Option String)
    (head : String → ProxyHeadOutcome) : HttpResp :=
  let target := jsOr urlParam uParam
  if !optTruthy target then
    { status := 400, body := .errBody "missing url parameter" }
  else
    let t := target.getD ""
    if !startsWithHttpPrefix t then
      { status := 400, body := .errBody "invalid url parameter, must start with http/https" }
    else
      { status := 200, body := .result (doHeadCheck (head t)) }

/-! ## Concrete oracles used by witnesses and counterexamples -/

/-- A network on which everything is alive and an image. -/
def happyNet : NetOracle :=
  { verify := fun _ => .okAlive true (some "image/jpeg")
    head := fun _ => .resp true (some "image/jpeg") }

/-- A network on which every check fails (verify server absent, HEAD throws). -/
def idleNet : NetOracle :=
  { verify := fun _ => .noAnswer, head := fun _ => .fetchError }

/-- An environment that reaches the fallback stage and has it throw. -/
def quietEnv : Env :=
  { initialized := true, descCall := .ok (some "query line"), net := idleNet,
    pexelsKey := none, pexelsResp := none, apiflashKey := none,
    searchCall := .ok none, fallbackCall := .threw "model unavailable" }

/-- `Except.ok`-ness of a pipeline outcome. -/
def isOkE : Except String (List WebInspiration) → Bool
  | .ok _ => true
  | .error _ => false

/-- An environment in which the synthesis call succeeds and the
grounded-search call throws. -/
def groundedThrowEnv : Env :=
  { initialized := true, descCall := .ok (some "query line"), net := idleNet,
    pexelsKey := none, pexelsResp := none, apiflashKey := none,
    searchCall := .threw "search backend unavailable", fallbackCall := .threw "unused" }

/-- An environment in which both model search calls succeed (with nothing)
but the fallback call throws. -/
def searchOkEnv : Env :=
  { initialized := true, descCall := .ok (some "q"), net := idleNet,
    pexelsKey := none, pexelsResp := none, apiflashKey := none,
    searchCall := .ok none, fallbackCall := .threw "boom" }

/-- A configured Pexels key with a successful search that returned no photos,
requested count 0, and a grounded-search call that records its invocation by
throwing. -/
def c6Env : Env :=
  { initialized := true, descCall := .ok (some "q"), net := idleNet,
    pexelsKey := some "PEXELS-KEY", pexelsResp := some [], apiflashKey := none,
    searchCall := .threw "grounded search invoked", fallbackCall := .threw "unused" }

/-- A Pexels photo carrying both a resource URL and a preview URL. -/
def onePhoto : PexelsPhoto :=
  { url := "https://www.pexels.com/photo/1", photographer_url := ""
    alt := some "A house", photographer := some "Ann"
    srcLarge := some "https://images.pexels.com/1.jpeg", srcMedium := none
    srcOriginal := none }

/-- A configured Pexels key with one valid photo; both search stages would
record their invocation by throwing. -/
def pexelsEnv : Env :=
  { initialized := true, descCall := .ok (some "q"), net := idleNet,
    pexelsKey := some "PK", pexelsResp := some [onePhoto], apiflashKey := none,
    searchCall := .threw "never reached", fallbackCall := .threw "never reached" }

/-- A network that reports every URL alive with a PDF content type. -/
def pdfNet : NetOracle :=
  { verify := fun _ => .okAlive true (some "application/pdf")
    head := fun _ => .fetchError }

/-- A grounding chunk pointing at a document page. -/
def pdfWeb : WebData :=
  { uri := "https://a.com/doc", title := "Doc", image := none, imageUrl := none,
    ogImage := none, matchReason := none }

/-- Environment for the PDF acceptance bug: one grounded candidate whose
liveness checks report alive with content type `application/pdf`. -/
def c2Env : Env :=
  { initialized := true, descCall := .ok (some "q"), net := pdfNet,
    pexelsKey := none, pexelsResp := none, apiflashKey := none,
    searchCall := .ok (some [{ web := some pdfWeb }]), fallbackCall := .threw "unused" }

/-- A grounding chunk with a direct image. -/
def dupWeb : WebData :=
  { uri := "https://a.com/x", title := "T", image := some "https://a.com/x.png",
    imageUrl := none, ogImage := none, matchReason := none }

/-- Environment whose grounding metadata lists the same page twice. -/
def c1Env : Env :=
  { initialized := true, descCall := .ok (some "q"), net := happyNet,
    pexelsKey := none, pexelsResp := none, apiflashKey := none,
    searchCall := .ok (some [{ web := some dupWeb }, { web := some dupWeb }]),
    fallbackCall := .threw "unused" }

/-- A network on which every check answers definitively dead (verify server
silent, HEAD responding not-ok), so the extension heuristic never fires. -/
def deadNet : NetOracle :=
  { verify := fun _ => .noAnswer, head := fun _ => .resp false none }

/-- A network on which the page URL is alive but everything else is dead. -/
def pageAliveNet : NetOracle :=
  { verify := fun url =>
      if url = "https://site.org/page" then .okAlive true (some "text/html")
      else .okAlive false none
    head := fun _ => .fetchError }

/-- A fallback candidate whose preview URL has an image extension but whose
liveness checks fail. -/
def c7Item : RawCand :=
  { uri := "https://z.org/p", title := "t", source := "z.org",
    previewUrl := "https://z.org/a.png", matchReason := "" }

/-- A tag scores the flat +2 (20 tenths): it is truthy and occurs in the
haystack. -/
def tagHit (hay t : String) : Bool := t ≠ "" && containsSub hay t

/-- How many words of the tag occur independently in the haystack (an empty
tag has no nonempty words). -/
def wordHits (hay t : String) : Nat :=
  ((jsSplit ' ' t).filter fun p => p ≠ "" && containsSub hay p).length

/-- The per-tag score contribution as the spec describes it: +2 (20 tenths)
for a tag hit plus `wordBonus` tenths per independently-found word. -/
def tagContribFn (wordBonus : Score) (hay t : String) : Score :=
  (if tagHit hay t then 20 else 0) + wordBonus * (wordHits hay t : Int)

/-- The final score a fallback-path candidate carries after validation: the
`scoreFor` pre-score plus the validation bonuses (lines 319-328 and 358-361). -/
def fallbackFinalScore (net : NetOracle) (apiflashKey : Option String)
    (tagMatchers : List String) (r : RawCand) : Score :=
  (validateFallback net apiflashKey (toScored tagMatchers r)).score

/-- Modelled from the claim's wording (C7): the asserted score formula, with a
**single** +1.2 (12 tenths) image-extension bonus, +1.5 for an image content
type, +1.5 for a preferred `uri` hostname and +2 when alive, on top of the tag
points. The code's fallback path deviates from this formula. -/
def claimC7Score (wordBonus : Score) (net : NetOracle) (apiflashKey : Option String)
    (tagMatchers : List String) (r : RawCand) : Score :=
  let live := livenessPass net apiflashKey r.previewUrl r.uri
  (tagMatchers.map (tagContribFn wordBonus
      (hayOf r.uri r.title r.previewUrl r.matchReason))).sum
    + (if isLikelyImageUrl live.imageUrl then 12 else 0)
    + (if ctImage live.contentType then 15 else 0)
    + (if hostScoreBonus r.uri then 15 else 0)
    + (if live.alive then 20 else 0)

/-- The candidate lists fed into the three retrieval paths carry pairwise
distinct `uri`s (the hypothesis of the amended C1). -/
def sourceUrisNodup (env : Env) (count : Nat) : Prop :=
  (∀ photos, env.pexelsResp = some photos →
      ((pexelsMapped photos).map WebInspiration.uri).Nodup) ∧
  (∀ cs, env.searchCall = .ok (some cs) →
      ((groundedRaw env.apiflashKey cs).map RawCand.uri).Nodup) ∧
  (∀ fb parsed, env.fallbackCall = .ok fb → fallbackParsedItems fb count = some parsed →
      ((fallbackMapped parsed).map RawCand.uri).Nodup)

/-! ## General lemmas -/

theorem insertByScore_perm {α : Type} (sc : α → Score) (x : α) (l : List α) :
    List.Perm (insertByScore sc x l) (x :: l) := by
  induction l with
  | nil => simp [insertByScore]
  | cons y ys ih =>
    simp only [insertByScore]
    split
    · exact List.Perm.refl _
    · exact (ih.cons y).trans (List.Perm.swap x y ys)

theorem sortByScoreDesc_perm {α : Type} (sc : α → Score) (l : List α) :
    List.Perm (sortByScoreDesc sc l) l := by
  induction l with
  | nil => simp [sortByScoreDesc]
  | cons x xs ih =>
    exact (insertByScore_perm sc x (sortByScoreDesc sc xs)).trans (ih.cons x)

theorem stripV_uri (i : VCand) : (stripV i).uri = i.uri := rfl

theorem validateGrounded_uri (net : NetOracle) (apiflashKey : Option String)
    (tagMatchers : List String) (item : RawCand) :
    (validateGrounded net apiflashKey tagMatchers item).uri = item.uri := rfl

theorem validateFallback_uri (net : NetOracle) (apiflashKey : Option String) (c : SCand) :
    (validateFallback net apiflashKey c).uri = c.uri := rfl

theorem toScored_uri (tagMatchers : List String) (r : RawCand) :
    (toScored tagMatchers r).uri = r.uri := rfl

/-- The shared validate→filter→sort→take→strip tail preserves distinctness of
`uri`s. -/
theorem finalize_uris_nodup (count : Nat) (validated : List VCand)
    (h : (validated.map VCand.uri).Nodup) :
    ((((sortByScoreDesc VCand.score (validated.filter passesFilter)).take count).map
        stripV).map WebInspiration.uri).Nodup := by
  have e : (((sortByScoreDesc VCand.score (validated.filter passesFilter)).take count).map
        stripV).map WebInspiration.uri
      = ((sortByScoreDesc VCand.score (validated.filter passesFilter)).take count).map
        VCand.uri := by
    simp [List.map_map, Function.comp_def, stripV_uri]
  rw [e]
  have h1 : ((validated.filter passesFilter).map VCand.uri).Nodup :=
    h.sublist ((List.filter_sublist _).map _)
  have h2 : ((sortByScoreDesc VCand.score (validated.filter passesFilter)).map
      VCand.uri).Nodup :=
    ((sortByScoreDesc_perm VCand.score _).map VCand.uri).nodup_iff.mpr h1
  exact h2.sublist ((List.take_sublist _ _).map _)

/-- Validating the grounded candidates does not change their `uri`s. -/
theorem groundedResult_uris_nodup (net : NetOracle) (apiflashKey : Option String)
    (tags : List String) (chunks : List Chunk) (count : Nat)
    (hn : ((groundedRaw apiflashKey chunks).map RawCand.uri).Nodup) :
    ((groundedResult net apiflashKey tags chunks count).map WebInspiration.uri).Nodup := by
  unfold groundedResult
  apply finalize_uris_nodup
  simpa [List.map_map, Function.comp_def, validateGrounded_uri] using hn

/-- One harvesting step keeps the `uri`s distinct: a URL already present is
skipped. -/
theorem harvest_uris_nodup (count : Nat) (urls : List String) (l : List SCand)
    (h : (l.map SCand.uri).Nodup) :
    ((harvest count urls l).map SCand.uri).Nodup := by
  induction urls generalizing l with
  | nil => exact h
  | cons u us ih =>
    have hstep : harvest count (u :: us) l =
        harvest count us
          (if count ≤ l.length then l
           else if l.any (fun x => x.uri = u) then l
           else l ++ [harvestItem u]) := by
      simp only [harvest, List.foldl_cons]
    rw [hstep]
    apply ih
    split
    · exact h
    · split
      · exact h
      next hc hany =>
        have hu : u ∉ l.map SCand.uri := by
          intro hmem
          obtain ⟨x, hx, hxu⟩ := List.mem_map.mp hmem
          exact hany (List.any_eq_true.mpr ⟨x, hx, by simp [hxu]⟩)
        have : (l.map SCand.uri ++ [u]).Nodup := by
          refine (List.perm_append_singleton u (l.map SCand.uri)).nodup_iff.mpr ?_
          exact List.nodup_cons.mpr ⟨hu, h⟩
        simpa [harvestItem] using this

/-- The fallback stage returns pairwise-distinct `uri`s whenever the parsed
candidate list does. -/
theorem fallbackStage_uris_nodup (net : NetOracle) (apiflashKey : Option String)
    (tags : List String) (fb : FallbackResp) (count : Nat)
    (hn : ∀ parsed, fallbackParsedItems fb count = some parsed →
        ((fallbackMapped parsed).map RawCand.uri).Nodup) :
    ((fallbackStage net apiflashKey tags fb count).map WebInspiration.uri).Nodup := by
  unfold fallbackStage
  split
  · simp
  next parsed hp =>
    split
    · simp
    · have h0 := hn parsed hp
      have hscored : (((fallbackMapped parsed).map (toScored (tags.map lowerStr))).map
          SCand.uri).Nodup := by
        simpa [List.map_map, Function.comp_def, toScored_uri] using h0
      have hsorted : ((sortByScoreDesc SCand.score
          ((fallbackMapped parsed).map (toScored (tags.map lowerStr)))).map
            SCand.uri).Nodup :=
        ((sortByScoreDesc_perm SCand.score _).map SCand.uri).nodup_iff.mpr hscored
      have hextra : (((if (sortByScoreDesc SCand.score
            ((fallbackMapped parsed).map (toScored (tags.map lowerStr)))).length < count then
          harvest count ((dedupFirst (fb.urlMatches2.take (count * 3))).filter strTruthy)
            (sortByScoreDesc SCand.score
              ((fallbackMapped parsed).map (toScored (tags.map lowerStr))))
        else sortByScoreDesc SCand.score
            ((fallbackMapped parsed).map (toScored (tags.map lowerStr))))).map
          SCand.uri).Nodup := by
        split
        · exact harvest_uris_nodup _ _ _ hsorted
        · exact hsorted
      apply finalize_uris_nodup
      simpa [List.map_map, Function.comp_def, validateFallback_uri] using hextra

/-- Unfolding of a successful Pexels stage: the returned list is the mapped
photo list truncated to the requested count. -/
theorem pexelsHitOf_eq_some (env : Env) (intent : Intent) (count : Nat)
    (pexResults : List WebInspiration)
    (h : pexelsHitOf env intent count = some pexResults) :
    ∃ photos, env.pexelsResp = some photos ∧
      pexResults = (pexelsMapped photos).take count := by
  unfold pexelsHitOf searchPexels at h
  split at h
  · split at h
    next pexR heq =>
      split at h
      · injection h with h2
        subst h2
        split at heq
        · exact absurd heq (by simp)
        · split at heq
          · exact absurd heq (by simp)
          next photos hresp =>
            dsimp only at heq
            split at heq
            · exact absurd heq (by simp)
            · injection heq with h3
              exact ⟨photos, hresp, h3.symm⟩
      · exact absurd h (by simp)
    next heq => exact absurd h (by simp)
  · exact absurd h (by simp)

theorem groundedResult_length_le (net : NetOracle) (apiflashKey : Option String)
    (tags : List String) (chunks : List Chunk) (count : Nat) :
    (groundedResult net apiflashKey tags chunks count).length ≤ count := by
  simp only [groundedResult, List.length_map, List.length_take]
  exact Nat.min_le_left _ _

theorem fallbackStage_length_le (net : NetOracle) (apiflashKey : Option String)
    (tags : List String) (fb : FallbackResp) (count : Nat) :
    (fallbackStage net apiflashKey tags fb count).length ≤ count := by
  unfold fallbackStage
  split
  · simp
  · split
    · simp
    · simp only [List.length_map, List.length_take]
      exact Nat.min_le_left _ _

/-! ## Score decomposition lemmas -/

theorem ite_add_shift (b : Bool) (a k : Int) :
    (if b then a + k else a) = a + (if b then k else 0) := by
  cases b <;> simp

theorem foldl_if_add (w : Score) (cond : String → Bool) (l : List String) (s : Score) :
    l.foldl (fun a p => if cond p then a + w else a) s
      = s + w * ((l.countP cond : Nat) : Int) := by
  induction l generalizing s with
  | nil => simp
  | cons p ps ih =>
    simp only [List.foldl_cons, List.countP_cons]
    cases hc : cond p with
    | false => simp [hc, ih s]
    | true =>
      rw [if_pos rfl, ih (s + w)]
      simp only [if_true]
      push_cast
      ring

theorem wordHits_empty (hay : String) : wordHits hay "" = 0 := by
  simp [wordHits, jsSplit, splitChar]

/-- The tag loop of the source computes exactly the sum of the per-tag
contributions. -/
theorem scoreTags_eq_sum (w : Score) (hay : String) (tags : List String) :
    scoreTags w hay tags = (tags.map (tagContribFn w hay)).sum := by
  suffices h : ∀ s, tags.foldl
      (fun score tag =>
        if tag = "" then score
        else
          let score := if containsSub hay tag then score + 20 else score
          (jsSplit ' ' tag).foldl
            (fun s p => if p ≠ "" && containsSub hay p then s + w else s) score) s
      = s + (tags.map (tagContribFn w hay)).sum by
    simpa [scoreTags] using h 0
  induction tags with
  | nil => simp
  | cons t ts ih =>
    intro s
    simp only [List.foldl_cons, List.map_cons, List.sum_cons]
    have hstep : (if t = "" then s
        else
          let sc := if containsSub hay t then s + 20 else s
          (jsSplit ' ' t).foldl
            (fun a p => if p ≠ "" && containsSub hay p then a + w else a) sc)
        = s + tagContribFn w hay t := by
      by_cases ht : t = ""
      · subst ht
        simp [tagContribFn, tagHit, wordHits_empty]
      · rw [if_neg ht]
        show ((jsSplit ' ' t).foldl
            (fun a p => if p ≠ "" && containsSub hay p then a + w else a)
            (if containsSub hay t then s + 20 else s)) = _
        rw [foldl_if_add]
        have hcount : ((jsSplit ' ' t).countP fun p => p ≠ "" && containsSub hay p)
            = wordHits hay t := by
          simp [wordHits, List.countP_eq_length_filter]
        rw [hcount]
        unfold tagContribFn tagHit
        have ht' : (decide ¬t = "") = true := by simpa using ht
        by_cases hsub : containsSub hay t
        · simp [hsub, ht']
          ring
        · simp [hsub, ht']
    rw [hstep, ih]
    ring

/-- Every per-tag contribution is nonnegative when the word bonus is. -/
theorem tagContribFn_nonneg (w : Score) (hw : 0 ≤ w) (hay t : String) :
    0 ≤ tagContribFn w hay t := by
  unfold tagContribFn
  have h1 : (0 : Int) ≤ if tagHit hay t then 20 else 0 := by split <;> omega
  have h2 : (0 : Int) ≤ w * (wordHits hay t : Int) :=
    mul_nonneg hw (Int.natCast_nonneg _)
  exact add_nonneg h1 h2

theorem scoreTags_mono (w : Score) (hw : 0 ≤ w) (hay : String)
    {tm₁ tm₂ : List String} (h : List.Sublist tm₁ tm₂) :
    scoreTags w hay tm₁ ≤ scoreTags w hay tm₂ := by
  rw [scoreTags_eq_sum, scoreTags_eq_sum]
  refine List.Sublist.sum_le_sum (h.map _) ?_
  intro a ha
  obtain ⟨t, _, rfl⟩ := List.mem_map.mp ha
  exact tagContribFn_nonneg w hw hay t

/-- The grounded-path score, decomposed into the spec's sum of contributions. -/
theorem validateGrounded_score_decomp (net : NetOracle) (apiflashKey : Option String)
    (tm : List String) (r : RawCand) :
    (validateGrounded net apiflashKey tm r).score =
      (tm.map (tagContribFn 5 (hayOf r.uri r.title r.previewUrl r.matchReason))).sum
      + (if isLikelyImageUrl (livenessPass net apiflashKey r.previewUrl r.uri).imageUrl
          then 12 else 0)
      + (if ctImage (livenessPass net apiflashKey r.previewUrl r.uri).contentType
          then 15 else 0)
      + (if hostScoreBonus r.uri then 15 else 0)
      + (if (livenessPass net apiflashKey r.previewUrl r.uri).alive then 20 else 0) := by
  unfold validateGrounded
  simp only [scoreTags_eq_sum, ite_add_shift]

/-- The fallback-path final score, decomposed: note the **two** image-extension
bonuses (+1 on the raw preview URL from `scoreFor`, +1.2 on the validated
image URL). -/
theorem fallbackFinalScore_decomp (net : NetOracle) (apiflashKey : Option String)
    (tm : List String) (r : RawCand) :
    fallbackFinalScore net apiflashKey tm r =
      (tm.map (tagContribFn 6 (hayOf r.uri r.title r.previewUrl r.matchReason))).sum
      + (if strTruthy r.previewUrl && isImageUrlNoGif r.previewUrl then 10 else 0)
      + (if hostScoreBonus r.uri then 15 else 0)
      + (if isLikelyImageUrl (livenessPass net apiflashKey r.previewUrl r.uri).imageUrl
          then 12 else 0)
      + (if ctImage (livenessPass net apiflashKey r.previewUrl r.uri).contentType
          then 15 else 0)
      + (if (livenessPass net apiflashKey r.previewUrl r.uri).alive then 20 else 0) := by
  unfold fallbackFinalScore validateFallback toScored scoreFor
  simp only [scoreTags_eq_sum, ite_add_shift]

/-! ## Claim C4 -/

/-- C4: for every URL containing (case-insensitively) `404`, `notfound`,
`error` or `page-not-found`, `checkUrlAlive` reports not alive and issues no
network request, whatever the proxy or the direct HEAD check would have
answered. -/
theorem claim_C4_short_circuit (net : NetOracle) (url : String)
    (h : containsCI url "404" = true ∨ containsCI url "notfound" = true ∨
         containsCI url "error" = true ∨ containsCI url "page-not-found" = true) :
    (checkUrlAlive net url).1.alive = false ∧ (checkUrlAlive net url).2 = false := by
  have hk : hasDeadKeyword url = true := by
    unfold containsCI at h
    refine List.any_eq_true.mpr ?_
    rcases h with h | h | h | h
    · exact ⟨"404", by decide, by simpa using h⟩
    · exact ⟨"notfound", by decide, by simpa using h⟩
    · exact ⟨"error", by decide, by simpa using h⟩
    · exact ⟨"page-not-found", by decide, by simpa using h⟩
  by_cases h0 : url = ""
  · simp [checkUrlAlive, h0]
  · simp [checkUrlAlive, h0, hk]

/-- Witness for C4 at a concrete URL containing `404`, against a network that
would have reported the URL alive. -/
theorem claim_C4_short_circuit_witness :
    (checkUrlAlive happyNet "https://ex.com/404-page.jpg").1.alive = false ∧
    (checkUrlAlive happyNet "https://ex.com/404-page.jpg").2 = false :=
  claim_C4_short_circuit happyNet _ (Or.inl (by decide))

/-! ## Claim C5 -/

/-- C5: every list returned normally by `findWebInspiration` has length at
most the requested count, on every return path. -/
theorem postPexels_length_le (env : Env) (tags : List String) (count : Nat)
    (result : List WebInspiration) (h : postPexels env tags count = .ok result) :
    result.length ≤ count := by
  unfold postPexels at h
  split at h
  · exact absurd h (by simp)
  · split at h
    · injection h with h2
      subst h2
      exact groundedResult_length_le _ _ _ _ _
    · split at h
      · injection h with h2
        subst h2
        simp
      · injection h with h2
        subst h2
        exact fallbackStage_length_le _ _ _ _ _

theorem claim_C5_length_bound (env : Env) (count : Nat) (result : List WebInspiration)
    (h : findWebInspiration env count = .ok result) :
    result.length ≤ count := by
  unfold findWebInspiration at h
  split at h
  · exact absurd h (by simp)
  · split at h
    · exact absurd h (by simp)
    · split at h
      · injection h with h2
        subst h2
        simp only [List.length_take]
        exact Nat.min_le_left _ _
      · exact postPexels_length_le _ _ _ _ h

/-- Witness for C5: a concrete environment whose pipeline returns `[]` for a
requested count of 3. -/
theorem claim_C5_length_bound_witness : ([] : List WebInspiration).length ≤ 3 :=
  claim_C5_length_bound quietEnv 3 [] rfl

/-! ## Claim C3 -/

/-- C3 counterexample: the synthesis call succeeds, yet an error raised inside
the grounded web-search stage propagates to the caller (wrapped by the outer
catch) instead of being recovered by falling through to the next stage. -/
theorem claim_C3_counterexample :
    groundedThrowEnv.descCall = .ok (some "query line") ∧
    findWebInspiration groundedThrowEnv 2 =
      .error "Failed to find inspiration: search backend unavailable" :=
  ⟨rfl, rfl⟩

/-- C3 amended: if the synthesis call succeeds and the grounded web-search
call itself returns (with any metadata, including none), then every error of
the remaining retrieval stages — a failed or empty Pexels search, and a
throwing or unparsable free-text fallback call — is recovered locally and the
function returns normally. (An exception thrown by the grounded web-search
call is the one stage error that propagates, as the counterexample shows.) -/
theorem claim_C3_amended (env : Env) (count : Nat) (txt : Option String)
    (gm : Option (List Chunk))
    (hinit : env.initialized = true)
    (hdesc : env.descCall = .ok txt)
    (hsearch : env.searchCall = .ok gm) :
    isOkE (findWebInspiration env count) = true := by
  have h1 : findWebInspiration env count =
      match pexelsHitOf env (deriveIntent txt) count with
      | some pexResults => .ok (pexResults.take count)
      | none => postPexels env (deriveIntent txt).attributeTags count := by
    unfold findWebInspiration
    rw [hinit, hdesc]
    rfl
  rw [h1]
  cases pexelsHitOf env (deriveIntent txt) count with
  | some r => simp [isOkE]
  | none =>
    unfold postPexels
    rw [hsearch]
    dsimp only
    by_cases hg : 0 < (gm.getD []).length
    · rw [if_pos hg]
      rfl
    · rw [if_neg hg]
      cases env.fallbackCall <;> rfl

/-- Witness for C3 (amended) at a concrete environment whose fallback call
throws: the pipeline still returns normally. -/
theorem claim_C3_amended_witness : isOkE (findWebInspiration searchOkEnv 2) = true :=
  claim_C3_amended searchOkEnv 2 (some "q") none rfl rfl rfl

/-! ## Claim C6 -/

/-- C6 counterexample: a Pexels credential is configured and the stock-photo
search succeeds with zero items — at least `min(1, 0) = 0` items, each
(vacuously) having both URLs — for requested count 0. The claim demands the
empty result with no later stage invoked; instead the grounded-search stage
runs (observable here because it throws). -/
theorem claim_C6_counterexample :
    optTruthy c6Env.pexelsKey = true ∧ c6Env.pexelsResp = some [] ∧
    pexelsMapped [] = [] ∧
    findWebInspiration c6Env 0 =
      .error "Failed to find inspiration: grounded search invoked" :=
  ⟨rfl, rfl, rfl, rfl⟩

/-- C6 amended: if a Pexels credential is configured and the stock-photo
search yields at least **one** item having both a resource URL and a preview
URL, then `findWebInspiration` returns exactly those items truncated to the
requested count, and no later retrieval stage is invoked (the conclusion
holds for every value of the grounded-search and fallback oracles, including
throwing ones). -/
theorem claim_C6_amended (env : Env) (count : Nat) (txt : Option String)
    (photos : List PexelsPhoto)
    (hinit : env.initialized = true)
    (hdesc : env.descCall = .ok txt)
    (hkey : optTruthy env.pexelsKey = true)
    (hresp : env.pexelsResp = some photos)
    (hnonempty : pexelsMapped photos ≠ []) :
    findWebInspiration env count = .ok ((pexelsMapped photos).take count) := by
  have hne : (pexelsMapped photos).length ≠ 0 := by
    intro h0
    exact hnonempty (List.length_eq_zero.mp h0)
  have hcond : min 1 count ≤ ((pexelsMapped photos).take count).length := by
    simp only [List.length_take]
    omega
  have hpex : pexelsHitOf env (deriveIntent txt) count =
      some ((pexelsMapped photos).take count) := by
    unfold pexelsHitOf searchPexels
    rw [hkey, hresp]
    simp [hne, hcond]
  have h1 : findWebInspiration env count =
      match pexelsHitOf env (deriveIntent txt) count with
      | some pexResults => .ok (pexResults.take count)
      | none => postPexels env (deriveIntent txt).attributeTags count := by
    unfold findWebInspiration
    rw [hinit, hdesc]
    rfl
  rw [h1, hpex]
  simp [List.take_take]

/-- Witness for C6 (amended): one valid photo, count 2, both search stages
primed to throw — the pipeline returns the Pexels items untouched. -/
theorem claim_C6_amended_witness :
    findWebInspiration pexelsEnv 2 = .ok ((pexelsMapped [onePhoto]).take 2) :=
  claim_C6_amended pexelsEnv 2 (some "q") [onePhoto] rfl rfl rfl rfl (by decide)

/-! ## Claim C1 -/

/-- C1 counterexample: grounding metadata that lists the same page twice
produces a result with two entries sharing one `uri` — no return path
deduplicates by `uri`. -/
theorem claim_C1_counterexample :
    (findWebInspiration c1Env 2).map (List.map WebInspiration.uri) =
      .ok ["https://a.com/x", "https://a.com/x"] ∧
    ¬ (["https://a.com/x", "https://a.com/x"] : List String).Nodup :=
  ⟨rfl, by decide⟩

/-- C1 amended: the returned list contains no two entries with identical `uri`
**provided** the candidates entering each retrieval path already carry
pairwise-distinct `uri`s; none of the paths introduces a duplicate (in
particular the fallback's extra-URL harvesting skips URLs already present). -/
theorem claim_C1_amended (env : Env) (count : Nat) (result : List WebInspiration)
    (h : findWebInspiration env count = .ok result)
    (hsrc : sourceUrisNodup env count) :
    (result.map WebInspiration.uri).Nodup := by
  obtain ⟨hpexN, hgrN, hfbN⟩ := hsrc
  unfold findWebInspiration at h
  split at h
  · exact absurd h (by simp)
  · split at h
    · exact absurd h (by simp)
    next txt hdesc =>
      split at h
      next pexResults hhit =>
        injection h with h2
        subst h2
        obtain ⟨photos, hresp, hr⟩ := pexelsHitOf_eq_some _ _ _ _ hhit
        subst hr
        have hn := hpexN photos hresp
        exact hn.sublist (((List.take_sublist _ _).trans (List.take_sublist _ _)).map _)
      next hhit =>
        unfold postPexels at h
        split at h
        · exact absurd h (by simp)
        next gm hsearch =>
          split at h
          next hg =>
            injection h with h2
            subst h2
            cases gm with
            | none => simp at hg
            | some cs =>
              exact groundedResult_uris_nodup _ _ _ _ _ (hgrN cs hsearch)
          next hg =>
            split at h
            · injection h with h2
              subst h2
              simp
            next fb hfb =>
              injection h with h2
              subst h2
              exact fallbackStage_uris_nodup _ _ _ _ _
                (fun parsed hp => hfbN fb parsed hfb hp)

/-- Witness for C1 (amended): an environment with no duplicate sources
(trivially, because every source is empty or failing). -/
theorem claim_C1_amended_witness : (([] : List WebInspiration).map WebInspiration.uri).Nodup :=
  claim_C1_amended quietEnv 3 [] rfl
    ⟨fun _ hp => by simp [quietEnv] at hp,
     fun _ hcs => by simp [quietEnv] at hcs,
     fun _ _ hfb _ => by simp [quietEnv] at hfb⟩

/-! ## Claim C2 -/

/-- C2 is violated by the code: a candidate whose liveness checks report
alive with content type `application/pdf` gets the +2 liveness score bonus
*before* the PDF demotion `if (isPdf) alive = false`, so it passes the
acceptance filter through its score (`_score >= 2`) and is returned — despite
the in-code comment "reject PDFs and obvious document types". -/
theorem claim_C2_pdf_kept :
    (validateGrounded pdfNet none [] (mkGroundedCand none pdfWeb)).contentType
        = some "application/pdf" ∧
    (validateGrounded pdfNet none [] (mkGroundedCand none pdfWeb)).alive = false ∧
    (validateGrounded pdfNet none [] (mkGroundedCand none pdfWeb)).score = 20 ∧
    findWebInspiration c2Env 1 =
      .ok [{ uri := "https://a.com/doc", title := "Doc", source := "a.com",
             previewUrl := microlinkUrl "https://a.com/doc", matchReason := some "" }] :=
  ⟨rfl, rfl, by decide, rfl⟩

/-! ## Claim C7 -/

/-- C7 counterexample (scores in tenths of a point): a fallback candidate with
an image-extension preview URL, no tag matches, dead and content-type-less,
scores 2.2 (22 tenths: +1 from `scoreFor`'s extension bonus plus +1.2 from the
validation extension bonus), while the claim's formula — a single +1.2
extension bonus — predicts 1.2 (12 tenths). -/
theorem claim_C7_counterexample :
    fallbackFinalScore deadNet none [] c7Item = 22 ∧
    claimC7Score 6 deadNet none [] c7Item = 12 ∧
    (22 : Score) ≠ 12 :=
  ⟨by decide, by decide, by decide⟩

/-- C7 amended (scores in tenths of a point: 20 = +2, 5 = +0.5, 6 = +0.6,
12 = +1.2, 15 = +1.5, 10 = +1): the final score is the sum of exactly these
contributions — per-tag contributions (+2 per found tag plus +0.5/word in the
grounded path, +0.6/word in the fallback path), +1.5 for an image content
type, +1.5 for a preferred `uri` hostname, +2 when alive, and an
image-extension bonus that is a single +1.2 (on the final image URL) in the
grounded path but **two** bonuses in the fallback path: +1 for a
jpg/jpeg/png/webp extension on the raw preview URL plus +1.2 (gif included) on
the final image URL. -/
theorem claim_C7_score_decomposition (net : NetOracle) (apiflashKey : Option String)
    (tm : List String) (r : RawCand) :
    (validateGrounded net apiflashKey tm r).score =
      (tm.map (tagContribFn 5 (hayOf r.uri r.title r.previewUrl r.matchReason))).sum
      + (if isLikelyImageUrl (livenessPass net apiflashKey r.previewUrl r.uri).imageUrl
          then 12 else 0)
      + (if ctImage (livenessPass net apiflashKey r.previewUrl r.uri).contentType
          then 15 else 0)
      + (if hostScoreBonus r.uri then 15 else 0)
      + (if (livenessPass net apiflashKey r.previewUrl r.uri).alive then 20 else 0) ∧
    fallbackFinalScore net apiflashKey tm r =
      (tm.map (tagContribFn 6 (hayOf r.uri r.title r.previewUrl r.matchReason))).sum
      + (if strTruthy r.previewUrl && isImageUrlNoGif r.previewUrl then 10 else 0)
      + (if hostScoreBonus r.uri then 15 else 0)
      + (if isLikelyImageUrl (livenessPass net apiflashKey r.previewUrl r.uri).imageUrl
          then 12 else 0)
      + (if ctImage (livenessPass net apiflashKey r.previewUrl r.uri).contentType
          then 15 else 0)
      + (if (livenessPass net apiflashKey r.previewUrl r.uri).alive then 20 else 0) :=
  ⟨validateGrounded_score_decomp net apiflashKey tm r,
   fallbackFinalScore_decomp net apiflashKey tm r⟩

/-! ## Claim C8 -/

/-- C8: with the candidate's text, liveness, content type and host fixed,
enlarging the tag list (as a sublist extension) never decreases the score, in
either scoring path. -/
theorem claim_C8_score_monotone (net : NetOracle) (apiflashKey : Option String)
    (tm₁ tm₂ : List String) (r : RawCand) (h : List.Sublist tm₁ tm₂) :
    (validateGrounded net apiflashKey tm₁ r).score ≤
      (validateGrounded net apiflashKey tm₂ r).score ∧
    fallbackFinalScore net apiflashKey tm₁ r ≤ fallbackFinalScore net apiflashKey tm₂ r := by
  have hm5 := scoreTags_mono 5 (by decide)
    (hayOf r.uri r.title r.previewUrl r.matchReason) h
  have hm6 := scoreTags_mono 6 (by decide)
    (hayOf r.uri r.title r.previewUrl r.matchReason) h
  rw [scoreTags_eq_sum, scoreTags_eq_sum] at hm5 hm6
  constructor
  · rw [validateGrounded_score_decomp, validateGrounded_score_decomp]
    exact add_le_add_right (add_le_add_right (add_le_add_right
      (add_le_add_right hm5 _) _) _) _
  · rw [fallbackFinalScore_decomp, fallbackFinalScore_decomp]
    exact add_le_add_right (add_le_add_right (add_le_add_right
      (add_le_add_right (add_le_add_right hm6 _) _) _) _) _

/-- Witness for C8 at concrete tag lists. -/
theorem claim_C8_score_monotone_witness :
    (validateGrounded deadNet none ["glass"] c7Item).score ≤
      (validateGrounded deadNet none ["glass", "concrete"] c7Item).score ∧
    fallbackFinalScore deadNet none ["glass"] c7Item ≤
      fallbackFinalScore deadNet none ["glass", "concrete"] c7Item :=
  claim_C8_score_monotone deadNet none _ _ c7Item
    (List.Sublist.cons₂ "glass" (List.nil_sublist ["concrete"]))

/-! ## Claim C9 -/

/-- C9 counterexample: with the `url` query parameter absent but the
undocumented `u` alias present and valid, the proxy answers 200, not the 400
the claim requires for every request without a `url` parameter. -/
theorem claim_C9_counterexample :
    (handleVerify none (some "http://example.com") (fun _ => .resp 200 none)).status
        = 200 ∧
    (handleVerify none (some "http://example.com") (fun _ => .resp 200 none)).status
        ≠ 400 :=
  ⟨rfl, by decide⟩

/-- C9 amended: the proxy selects its target as `url || u`; if that target is
absent (or empty) or does not begin with `http://` or `https://`
(case-insensitively), it answers 400 with an error body; otherwise it answers
200 with the HEAD-check result, whose `alive` is true exactly when the HEAD
request completed with a status in `[200, 400)`, and false on error or
timeout. -/
theorem claim_C9_contract (urlParam uParam : Option String)
    (head : String → ProxyHeadOutcome) :
    (optTruthy (jsOr urlParam uParam) = false →
      handleVerify urlParam uParam head =
        { status := 400, body := .errBody "missing url parameter" }) ∧
    (∀ t, jsOr urlParam uParam = some t → strTruthy t = true →
      startsWithHttpPrefix t = false →
      handleVerify urlParam uParam head =
        { status := 400,
          body := .errBody "invalid url parameter, must start with http/https" }) ∧
    (∀ t, jsOr urlParam uParam = some t → strTruthy t = true →
      startsWithHttpPrefix t = true →
      handleVerify urlParam uParam head =
        { status := 200, body := .result (doHeadCheck (head t)) } ∧
      ((doHeadCheck (head t)).alive = true ↔
        ∃ st ct, head t = .resp st ct ∧ 200 ≤ st ∧ st < 400)) := by
  refine ⟨?_, ?_, ?_⟩
  · intro hmiss
    unfold handleVerify
    dsimp only
    rw [hmiss]
    rfl
  · intro t ht htru hpre
    unfold handleVerify
    dsimp only
    rw [ht]
    have htt : optTruthy (some t) = true := by simpa [optTruthy] using htru
    rw [htt]
    simp [hpre]
  · intro t ht htru hpre
    constructor
    · unfold handleVerify
      dsimp only
      rw [ht]
      have htt : optTruthy (some t) = true := by simpa [optTruthy] using htru
      rw [htt]
      simp [hpre]
    · cases ho : head t with
      | resp st ct =>
        constructor
        · intro halive
          have hb : (decide (200 ≤ st) && decide (st < 400)) = true := by
            simpa [doHeadCheck] using halive
          rw [Bool.and_eq_true, decide_eq_true_eq, decide_eq_true_eq] at hb
          exact ⟨st, ct, rfl, hb.1, hb.2⟩
        · rintro ⟨st', ct', hh, h1, h2⟩
          injection hh with e1 e2
          subst e1
          simp [doHeadCheck, h1, h2]
      | errored =>
        constructor
        · intro halive
          simp [doHeadCheck] at halive
        · rintro ⟨st', ct', hh, _, _⟩
          simp at hh
      | timedOut =>
        constructor
        · intro halive
          simp [doHeadCheck] at halive
        · rintro ⟨st', ct', hh, _, _⟩
          simp at hh

/-- Witness for C9 (amended): both parameters absent yields the 400 error. -/
theorem claim_C9_contract_witness :
    handleVerify none none (fun _ => .errored) =
      { status := 400, body := .errBody "missing url parameter" } :=
  (claim_C9_contract none none (fun _ => .errored)).1 rfl

/-! ## Claim C10 -/

/-- C10: in the shared liveness pass (used verbatim by both the grounded and
fallback paths), a dead preview URL with an alive page URI marks the candidate
alive while keeping the original preview URL; the preview URL is replaced —
necessarily by the screenshot URL — only when both checks fail, the snapshot
key is configured, and the single check of the screenshot URL reports alive. -/
theorem claim_C10_preview_substitution (net : NetOracle) (key : Option String)
    (p u : String) :
    ((checkUrlAlive net p).1.alive = false → strTruthy u = true →
      (checkUrlAlive net u).1.alive = true →
      (livenessPass net key p u).alive = true ∧ (livenessPass net key p u).imageUrl = p) ∧
    ((livenessPass net key p u).imageUrl ≠ p →
      optTruthy key = true ∧ strTruthy u = true ∧
      (checkUrlAlive net p).1.alive = false ∧ (checkUrlAlive net u).1.alive = false ∧
      (livenessPass net key p u).imageUrl = snapUrl (key.getD "") u ∧
      (checkUrlAlive net (snapUrl (key.getD "") u)).1.alive = true ∧
      (livenessPass net key p u).alive = true) ∧
    ((checkUrlAlive net p).1.alive = false → strTruthy u = true →
      optTruthy key = true → (checkUrlAlive net u).1.alive = false →
      (checkUrlAlive net (snapUrl (key.getD "") u)).1.alive = true →
      (livenessPass net key p u).imageUrl = snapUrl (key.getD "") u ∧
      (livenessPass net key p u).alive = true) := by
  unfold livenessPass
  refine ⟨?_, ?_, ?_⟩
  · intro hp hu hpage
    simp [hp, hu, hpage]
  · intro hne
    by_cases hp : (checkUrlAlive net p).1.alive
    · simp [hp] at hne
    · by_cases hu : strTruthy u
      · by_cases hpage : (checkUrlAlive net u).1.alive
        · simp [hp, hu, hpage] at hne
        · by_cases hkey : optTruthy key
          · by_cases hsnap : (checkUrlAlive net (snapUrl (key.getD "") u)).1.alive
            · simp only [hp, hu, hpage, hkey, hsnap] at hne ⊢
              simp_all
            · simp [hp, hu, hpage, hkey, hsnap] at hne
          · simp [hp, hu, hpage, hkey] at hne
      · simp [hp, hu] at hne
  · intro hp hu hkey hpage hsnap
    simp [hp, hu, hpage, hkey, hsnap]

/-- Witness for C10: dead preview, alive page, no snapshot key — the candidate
comes out alive with its original preview URL. -/
theorem claim_C10_preview_substitution_witness :
    (livenessPass pageAliveNet none "https://site.org/img.bmp"
        "https://site.org/page").alive = true ∧
    (livenessPass pageAliveNet none "https://site.org/img.bmp"
        "https://site.org/page").imageUrl = "https://site.org/img.bmp" :=
  (claim_C10_preview_substitution pageAliveNet none _ _).1 (by decide) (by decide) (by decide)
